import Mathlib

/-!
Verification of the orchestration core of `love.py` (SocialMediaGrabber).

Each Python function relevant to the claims is embedded as an executable
Lean definition over explicit environment records (filesystem predicates,
an abstract extraction engine, explicit random numbers).  Machine-level
details that no claim depends on (terminal rendering, actual I/O) are
abstracted into those records; the control flow and the data transformations
are translated line by line from the source.  Definitions come first,
theorems after.
-/

namespace SMG

/-! ## Definitions -/

/-! ### Python string primitives -/

/-- Truth of `pat` occurring contiguously inside `l`; the embedding of
Python's `sub in s` on strings, over character lists. -/
def listHasSub (pat : List Char) : List Char → Bool
  | [] => pat.isEmpty
  | c :: t => pat.isPrefixOf (c :: t) || listHasSub pat t

/-- Python `sub in s` for strings. -/
def strContains (s sub : String) : Bool :=
  listHasSub sub.data s.data

/-- Python `s.lower()`, character by character.  The URLs and domain markers
handled by the program are ASCII, where this agrees with Python. -/
def pyLower (s : String) : String :=
  ⟨s.data.map Char.toLower⟩

/-- Python `s.strip()`. -/
def pyStrip (s : String) : String :=
  ⟨((s.data.dropWhile Char.isWhitespace).reverse.dropWhile Char.isWhitespace).reverse⟩

/-- Index of the last occurrence of `c` in `l`. -/
def lastIndexOf (l : List Char) (c : Char) : Option Nat :=
  match l.reverse.findIdx? (· = c) with
  | none => none
  | some i => some (l.length - 1 - i)

/-- Model of `os.path.splitext` (posixpath): split at the last dot of the
last path component, unless that component consists of leading dots only. -/
def splitext (p : String) : String × String :=
  let l := p.data
  let sep : Int := match lastIndexOf l '/' with | none => -1 | some i => i
  let dot : Int := match lastIndexOf l '.' with | none => -1 | some i => i
  if sep < dot then
    let start := (sep + 1).toNat
    if ((l.drop start).take (dot.toNat - start)).any (fun ch => ch ≠ '.') then
      (⟨l.take dot.toNat⟩, ⟨l.drop dot.toNat⟩)
    else (p, "")
  else (p, "")

/-! ### PlatformRegistry (`self.supported_platforms`, love.py lines 41-51) -/

/-- The registry, in the declared (insertion) order of the Python dict. -/
def supported_platforms : List (String × List String) :=
  [("youtube", ["youtube.com", "youtu.be"]),
   ("facebook", ["facebook.com", "fb.watch"]),
   ("tiktok", ["tiktok.com"]),
   ("instagram", ["instagram.com"]),
   ("twitter", ["twitter.com", "x.com"]),
   ("reddit", ["reddit.com"]),
   ("vimeo", ["vimeo.com"]),
   ("dailymotion", ["dailymotion.com", "dai.ly"]),
   ("soundcloud", ["soundcloud.com"])]

/-- One registry entry's test,
`any(domain in url.lower() for domain in domains)`. -/
def platformMatches (url : String) (e : String × List String) : Bool :=
  e.2.any (fun d => strContains (pyLower url) d)

/-- The function `detect_platform` (love.py lines 155-160): first registry
entry, in declared order, one of whose domain markers occurs in the
lower-cased URL. -/
def detect_platform (url : String) : Option String :=
  (supported_platforms.find? (platformMatches url)).map Prod.fst

/-! ### DirectoryResolver: `get_default_download_dir` (love.py lines 116-148)

The host is abstracted as a record of the signals the function reads:
`platform.system()`, `ANDROID_ROOT in os.environ`, the relevant environment
paths, `os.path.exists`, and the outcome of the try-block that creates the
directory if missing, writes the `.write_test` marker file and deletes it
(`writeTestOk d = true` iff that whole block runs without OSError/IOError). -/

structure HostEnv where
  system : String
  hasAndroidRoot : Bool
  userProfile : String
  home : String
  cwd : String
  pathExists : String → Bool
  writeTestOk : String → Bool

/-- Model of `os.path.join` for the paths the program builds (separator
abstracted). -/
def pathJoin (a b : String) : String := a ++ "/" ++ b

/-- The Android candidate list (love.py lines 124-128). -/
def android_possible_dirs (env : HostEnv) : List String :=
  ["/storage/emulated/0/Download",
   "/data/data/com.termux/files/home/storage/downloads",
   pathJoin env.home "downloads"]

/-- The shared try-block at love.py lines 139-148: create the directory if
missing, write and delete the marker file, return the candidate; on any
OSError/IOError return the current working directory.  The second component
counts how many times the marker-file verification was attempted. -/
def verify_and_fallback (env : HostEnv) (downloads : String) : String × Nat :=
  if env.writeTestOk downloads then (downloads, 1) else (env.cwd, 1)

/-- The function `get_default_download_dir`, returning the chosen directory
together with the number of marker-file verifications performed on the way.
Note the Android branch (love.py lines 122-132) returns from inside the
per-OS table, bypassing the shared verification block. -/
def get_default_download_dir (env : HostEnv) : String × Nat :=
  if env.system = "Windows" then
    verify_and_fallback env (pathJoin env.userProfile "Downloads")
  else if env.system = "Linux" ∧ env.hasAndroidRoot = true then
    match (android_possible_dirs env).find? env.pathExists with
    | some d => (d, 0)
    | none => (env.cwd, 0)
  else if env.system = "Linux" ∨ env.system = "Darwin" then
    verify_and_fallback env (pathJoin env.home "Downloads")
  else
    verify_and_fallback env env.cwd

/-- The pre-verification candidate of the non-Android branches. -/
def default_candidate (env : HostEnv) : String :=
  if env.system = "Windows" then pathJoin env.userProfile "Downloads"
  else if env.system = "Linux" ∨ env.system = "Darwin" then
    pathJoin env.home "Downloads"
  else env.cwd

/-- An Android host on which the first well-known storage location exists
but nothing is writable. -/
def envAndroid : HostEnv :=
  { system := "Linux", hasAndroidRoot := true, userProfile := "C:/u",
    home := "/home/u", cwd := "/cwd",
    pathExists := fun p => p = "/storage/emulated/0/Download",
    writeTestOk := fun _ => false }

/-- A desktop host whose Downloads candidate fails the write test. -/
def envDesktopRO : HostEnv :=
  { system := "Darwin", hasAndroidRoot := false, userProfile := "C:/u",
    home := "/Users/u", cwd := "/cwd",
    pathExists := fun _ => true, writeTestOk := fun _ => false }

/-! ### DirectoryResolver: `set_download_directory` (love.py lines 384-416) -/

structure DirFs where
  pathExists : String → Bool
  mkdirOk : String → Bool
  writeTestOk : String → Bool

structure SetDirResult where
  download_dir : String
  /-- whether `os.makedirs` created the directory for the user -/
  createdDir : Bool
  /-- whether the success panel was shown (no exception in the try-block) -/
  accepted : Bool
deriving DecidableEq

/-- The function `set_download_directory`: if the path does not exist it is
created with `os.makedirs`; then the `.write_test` marker file is written and
removed; on any OSError/IOError the previous directory is kept. -/
def set_download_directory (fs : DirFs) (currentDir newDir : String) : SetDirResult :=
  if fs.pathExists newDir then
    if fs.writeTestOk newDir then ⟨newDir, false, true⟩
    else ⟨currentDir, false, false⟩
  else if fs.mkdirOk newDir then
    if fs.writeTestOk newDir then ⟨newDir, true, true⟩
    else ⟨currentDir, true, false⟩
  else ⟨currentDir, false, false⟩

/-- A filesystem on which the requested path does not exist and every
creation/write succeeds. -/
def fsFresh : DirFs :=
  { pathExists := fun _ => false, mkdirOk := fun _ => true,
    writeTestOk := fun _ => true }

/-- A filesystem on which the requested path exists and is writable. -/
def fsExisting : DirFs :=
  { pathExists := fun _ => true, mkdirOk := fun _ => false,
    writeTestOk := fun _ => true }

/-! ### DownloadOrchestrator: `download_media` (love.py lines 254-322)

The external extraction engine (`yt_dlp.YoutubeDL`) is abstracted as a
function from the URL and the assembled options to either a prepared
filename or an error message; everything the orchestrator passes to it and
does with its answer is translated from the source.  `random.randint` is
modelled by an explicit number argument. -/

inductive DownloadType where
  | video
  | audio
  | subtitles
deriving DecidableEq

structure YdlOpts where
  outtmpl : String
  format : Option String
  /-- the FFmpegExtractAudio-to-mp3 postprocessor block -/
  audioExtractMp3 : Bool
deriving DecidableEq

def Engine := String → YdlOpts → Except String String

structure Outcome where
  ok : Bool
  finalPath : Option String
  errMsg : Option String
deriving DecidableEq

/-- The function `get_random_filename` (love.py lines 162-167). -/
def get_random_filename (randNum : Nat) (extension : String) : String :=
  if extension ≠ "" then
    "AnmolKhadkaSocialMediaGrabber_" ++ toString randNum ++ "." ++ extension
  else
    "AnmolKhadkaSocialMediaGrabber_" ++ toString randNum

/-- The video format expression (love.py lines 291-295). -/
def video_format_expr (quality : String) : String :=
  if quality = "best" then
    "bestvideo[ext=mp4]+bestaudio[ext=m4a]/best[ext=mp4]/best"
  else
    "bestvideo[height<=" ++ quality ++ "][ext=mp4]+bestaudio[ext=m4a]/best[height<=" ++
      quality ++ "][ext=mp4]/best"

/-- The `ydl_opts` assembled by `download_media` (love.py lines 261-295):
output template by platform, then the media-kind specific entries. -/
def build_opts (downloadDir platformName : String) (randNum : Nat)
    (dt : DownloadType) (quality : String) : YdlOpts :=
  let out :=
    if platformName = "youtube" then pathJoin downloadDir "%(title)s.%(ext)s"
    else pathJoin downloadDir (get_random_filename randNum "%(ext)s")
  match dt with
  | DownloadType.audio => ⟨out, some "bestaudio/best", true⟩
  | DownloadType.video => ⟨out, some (video_format_expr quality), false⟩
  | DownloadType.subtitles => ⟨out, none, false⟩

/-- The function `download_media`.  Returns the `DownloadOutcome` together
with the engine invocation it performed (`none` when the engine was never
contacted).  The try/except at lines 297-319 converts every engine error
into a `False` outcome with a reported message. -/
def download_media (engine : Engine) (downloadDir : String) (randNum : Nat)
    (url : String) (dt : DownloadType) (quality : String) :
    Outcome × Option (String × YdlOpts) :=
  match detect_platform url with
  | none => (⟨false, none, some ("Unsupported URL or platform: " ++ url)⟩, none)
  | some p =>
    let opts := build_opts downloadDir p randNum dt quality
    match engine url opts with
    | Except.error e => (⟨false, none, some ("Download failed: " ++ e)⟩, some (url, opts))
    | Except.ok filename =>
      let finalName :=
        if dt = DownloadType.audio then (splitext filename).1 ++ ".mp3" else filename
      (⟨true, some finalName, none⟩, some (url, opts))

/-- Result of running a Python call that may raise an uncaught exception. -/
inductive PyResult (α : Type) where
  | ok (a : α)
  | exn (msg : String)
deriving DecidableEq

/-- The function `download_subtitles` (love.py lines 358-382).  The guard is
the literal `if 'youtube' not in self.detect_platform(url)`: when
`detect_platform` returns `None`, evaluating `in` on `None` raises a
`TypeError` that nothing in the function catches. -/
def download_subtitles (subEngine : String → Except String Unit) (url : String) :
    PyResult Bool :=
  match detect_platform url with
  | none => PyResult.exn "TypeError: argument of type NoneType is not iterable"
  | some p =>
    if strContains p "youtube" = false then PyResult.ok false
    else
      match subEngine url with
      | Except.ok _ => PyResult.ok true
      | Except.error _ => PyResult.ok false

/-! ### BatchRunner: `batch_download` (love.py lines 334-356) -/

structure BatchResult where
  succeeded : Nat
  total : Nat
  /-- the (stripped) URLs that were actually handed to `download_media` -/
  attempted : List String
deriving DecidableEq

/-- The body of the `for i, url in enumerate(urls, 1)` loop: strip, skip
blanks, otherwise download and count the successes. -/
def batch_go (engine : Engine) (dir : String) (rands : Nat → Nat)
    (dt : DownloadType) (quality : String) : Nat → List String → Nat × List String
  | _, [] => (0, [])
  | i, url :: rest =>
    let u := pyStrip url
    if u = "" then batch_go engine dir rands dt quality (i + 1) rest
    else
      let succ := (download_media engine dir (rands i) u dt quality).1.ok
      let r := batch_go engine dir rands dt quality (i + 1) rest
      ((if succ then 1 else 0) + r.1, u :: r.2)

/-- The function `batch_download`: note `total = len(urls)` (love.py
line 337) counts every entry of the input list, blank or not. -/
def batch_download (engine : Engine) (dir : String) (rands : Nat → Nat)
    (urls : List String) (dt : DownloadType) (quality : String) : BatchResult :=
  let r := batch_go engine dir rands dt quality 1 urls
  ⟨r.1, urls.length, r.2⟩

/-- An engine that succeeds on exactly one URL. -/
def engineC1 : Engine := fun url _ =>
  if url = "https://youtu.be/ok" then Except.ok "/d/v.mp4"
  else Except.error "network error"

/-- An engine that always fails, to witness that it is never reached. -/
def engineNever : Engine := fun _ _ => Except.error "engine reached"

/-- An engine that always yields a `.webm` intermediate filename. -/
def engineAudio : Engine := fun _ _ => Except.ok "/d/Some Title.webm"

/-! ### FormatNegotiator: `get_available_qualities` (love.py lines 169-209)
and `show_quality_menu` (lines 211-252)

The engine's metadata probe is abstracted as its result: `none` stands for
an extraction exception or a falsy `info_dict`, `some formats` for the
`info_dict.get('formats', [])` list.  Raw format dictionaries are records of
the keys the function reads, each optional exactly as `f.get(...)` allows. -/

structure RawFormat where
  vcodec : Option String
  height : Option Int
  ext : Option String
  format_note : Option String
  format_id : Option String
deriving DecidableEq

structure QualityOption where
  height : Int
  ext : String
  format_note : String
  format_id : String
deriving DecidableEq

/-- The sort key `f.get('height', 0)` — after the filter the default is
never used. -/
def heightKey (f : RawFormat) : Int := f.height.getD 0

/-- The filter at love.py lines 185-188: a determinable video height and a
vcodec that is not the literal string `none` (a missing vcodec passes). -/
def isVideoFormat (f : RawFormat) : Bool :=
  decide (f.vcodec ≠ some "none") && f.height.isSome

/-- One entry of the simplified `unique_formats` list (lines 200-205). -/
def mkQuality (f : RawFormat) : QualityOption :=
  ⟨heightKey f, f.ext.getD "mp4", f.format_note.getD "", f.format_id.getD ""⟩

/-- Python `video_formats.sort(key=..height.., reverse=True)` — Python's
sort is stable, so a stable descending merge sort computes the same list. -/
def sortFormats (l : List RawFormat) : List RawFormat :=
  l.mergeSort (fun a b => decide (heightKey b ≤ heightKey a))

/-- The `seen`-set loop at lines 194-205: keep the first format observed at
each height. -/
def dedupByHeight : List RawFormat → List Int → List QualityOption
  | [], _ => []
  | f :: rest, seen =>
    if heightKey f ∈ seen then dedupByHeight rest seen
    else mkQuality f :: dedupByHeight rest (heightKey f :: seen)

def get_available_qualities (probeRes : Option (List RawFormat)) : List QualityOption :=
  match probeRes with
  | none => []
  | some formats => dedupByHeight (sortFormats (formats.filter isVideoFormat)) []

/-- The function `show_quality_menu` with the interactive prompt abstracted
into the chosen number and the manually entered format id.  `Prompt.ask`
restricts `choice` to `1..len+2`, so the final fallback branch is
unreachable. -/
def show_quality_menu (probeRes : Option (List RawFormat)) (choice : Nat)
    (manualId : String) : String :=
  let qualities := get_available_qualities probeRes
  if qualities.isEmpty then "best"
  else if choice = 1 then "best"
  else if choice = qualities.length + 2 then manualId
  else
    match qualities[choice - 2]? with
    | some q => q.format_id
    | none => "best"

/-! ### ProgressTracker: `ytdl_progress_hook` (love.py lines 324-332)

A progress sample is the dictionary slice the hook reads.  `d['status']` is
always present in yt-dlp callbacks and is a plain field;
`d.get('total_bytes')`, `d.get('total_bytes_estimate')` and
`d['downloaded_bytes']` may be absent and are `Option`s — a missing
`downloaded_bytes` raises `KeyError` out of the subscript.  Python's float
percentage is modelled by an exact rational; the claimed bounds are about
order, not rounding. -/

structure ProgressDict where
  status : String
  downloaded_bytes : Option Nat
  total_bytes : Option Nat
  total_bytes_estimate : Option Nat

/-- Python truthiness of an optional integer: `None` and `0` are falsy. -/
def pyTruthy : Option Nat → Bool
  | none => false
  | some n => decide (n ≠ 0)

/-- Python `a or b` on optional integers, as used at love.py line 328. -/
def pyOrNat (a b : Option Nat) : Option Nat :=
  if pyTruthy a then a else b

/-- The hook: `active` is the truthiness of `self.progress and self.task`.
Returns the percentage pushed to the bar (`none` when nothing is emitted). -/
def ytdl_progress_hook (active : Bool) (d : ProgressDict) : PyResult (Option ℚ) :=
  if active then
    if d.status = "downloading" then
      let total := pyOrNat d.total_bytes d.total_bytes_estimate
      if pyTruthy total then
        match d.downloaded_bytes with
        | none => PyResult.exn "KeyError: downloaded_bytes"
        | some dn =>
          PyResult.ok (some (min 100 ((dn : ℚ) / ((total.getD 0 : Nat) : ℚ) * 100)))
      else PyResult.ok none
    else PyResult.ok none
  else PyResult.ok none

/-- A sample whose estimated byte counts overshoot: 150 bytes downloaded of
a reported total of 100. -/
def sampleOvershoot : ProgressDict :=
  { status := "downloading", downloaded_bytes := some 150,
    total_bytes := some 100, total_bytes_estimate := none }

/-! ### Direct-argument mode: `handle_cli_args` (love.py lines 556-601) -/

inductive CliAction where
  | printVersion
  | showAbout
  | download (url : String) (dt : DownloadType) (quality : String)
  | usageError
deriving DecidableEq

/-- The function `handle_cli_args` as the action it performs and the exit
code it passes to `sys.exit`.  The flag tests are literal `in sys.argv`
membership tests on the whole argument vector, in the source's order:
version, about, then the `-d`/`--download` form. -/
def handle_cli_args (argv : List String) : CliAction × Nat :=
  if "--version" ∈ argv ∨ "-v" ∈ argv then (CliAction.printVersion, 0)
  else if "--about" ∈ argv ∨ "-a" ∈ argv then (CliAction.showAbout, 0)
  else if 3 ≤ argv.length ∧ argv.getD 1 "" ∈ (["-d", "--download"] : List String) then
    let url := argv.getD 2 ""
    let audioFlag := "-a" ∈ argv ∨ "--audio" ∈ argv
    let dt := if audioFlag then DownloadType.audio else DownloadType.video
    let quality :=
      if audioFlag then "best"
      else if "-q" ∈ argv ∨ "--quality" ∈ argv then
        argv.getD ((if "-q" ∈ argv then argv.indexOf "-q" else argv.indexOf "--quality") + 1)
          "best"
      else "best"
    (CliAction.download url dt quality, 0)
  else (CliAction.usageError, 1)

/-! ## Theorems -/

/-- First-match characterisation of `List.find?`. -/
theorem find?_eq_some_split {α : Type} (p : α → Bool) (l : List α) (b : α)
    (hf : l.find? p = some b) :
    p b = true ∧ ∃ l1 l2, l = l1 ++ b :: l2 ∧ ∀ a ∈ l1, p a = false := by
  induction l with
  | nil => simp [List.find?] at hf
  | cons h t ih =>
    by_cases hp : p h = true
    · rw [List.find?_cons_of_pos _ hp, Option.some_inj] at hf
      subst hf
      exact ⟨hp, [], t, rfl, by simp⟩
    · rw [List.find?_cons_of_neg _ hp] at hf
      obtain ⟨hb, l1, l2, hsplit, hnone⟩ := ih hf
      refine ⟨hb, h :: l1, l2, by rw [hsplit]; rfl, ?_⟩
      intro a ha
      rcases List.mem_cons.mp ha with h1 | h1
      · subst h1; exact Bool.not_eq_true _ ▸ (by simpa using hp)
      · exact hnone a h1

/-- C5. `detect_platform` returns `none` exactly when no registry entry
matches the lower-cased URL; when it returns an id, that id belongs to the
first matching entry in the registry's declared order; the empty URL yields
`none` rather than an error. -/
theorem C5_detect (url : String) :
    (detect_platform url = none ↔
      ∀ e ∈ supported_platforms, platformMatches url e = false)
  ∧ (∀ pid, detect_platform url = some pid →
      ∃ e l1 l2, supported_platforms = l1 ++ e :: l2 ∧ e.1 = pid ∧
        platformMatches url e = true ∧ ∀ x ∈ l1, platformMatches url x = false)
  ∧ detect_platform "" = none := by
  refine ⟨?_, ?_, by decide⟩
  · unfold detect_platform
    rw [Option.map_eq_none', List.find?_eq_none]
    constructor
    · intro h e he
      exact Bool.not_eq_true _ ▸ (by simpa using h e he)
    · intro h e he
      simp [h e he]
  · intro pid hpid
    unfold detect_platform at hpid
    obtain ⟨e, hfind, hfst⟩ := Option.map_eq_some'.mp hpid
    obtain ⟨hmatch, l1, l2, hsplit, hnone⟩ :=
      find?_eq_some_split (platformMatches url) supported_platforms e hfind
    exact ⟨e, l1, l2, hsplit, hfst, hmatch, hnone⟩

/-- Witness for C5: on `https://youtu.be/abc` the hypothesis of the
first-match clause holds concretely and yields the youtube entry. -/
theorem C5_witness :
    ∃ e l1 l2, supported_platforms = l1 ++ e :: l2 ∧
      (e : String × List String).1 = "youtube" ∧
      platformMatches "https://youtu.be/abc" e = true ∧
      ∀ x ∈ l1, platformMatches "https://youtu.be/abc" x = false :=
  (C5_detect "https://youtu.be/abc").2.1 "youtube" (by decide)

/-- Outside the Android branch, the resolver is candidate selection followed
by the shared verify-or-fall-back block. -/
theorem get_default_eq_verify (env : HostEnv)
    (h : ¬ (env.system = "Linux" ∧ env.hasAndroidRoot = true)) :
    get_default_download_dir env = verify_and_fallback env (default_candidate env) := by
  unfold get_default_download_dir default_candidate
  by_cases hw : env.system = "Windows"
  · simp [hw]
  · by_cases hl : env.system = "Linux" ∨ env.system = "Darwin"
    · have : ¬ (env.system = "Linux" ∧ env.hasAndroidRoot = true) := h
      simp [hw, this, hl]
    · simp [hw, h, hl]

/-- Counterexample to C2: on the Android branch the marker-file writability
verification never runs (count 0, not 1), and the returned directory is an
unwritable candidate rather than the current working directory. -/
theorem C2_counterexample :
    (get_default_download_dir envAndroid).2 = 0 ∧
    (get_default_download_dir envAndroid).1 = "/storage/emulated/0/Download" ∧
    envAndroid.writeTestOk (get_default_download_dir envAndroid).1 = false ∧
    (get_default_download_dir envAndroid).1 ≠ envAndroid.cwd := by
  refine ⟨by decide, by decide, by decide, by decide⟩

/-- C2 (amended).  On every branch except the Android one, the marker-file
verification runs exactly once and the function returns the verified
candidate, or the current working directory when verification fails.  On the
Android branch no verification runs: the first existing well-known location
(else the current working directory) is returned unverified. -/
theorem C2_default_dir (env : HostEnv) :
    (¬ (env.system = "Linux" ∧ env.hasAndroidRoot = true) →
      (get_default_download_dir env).2 = 1 ∧
      ((get_default_download_dir env).1 = default_candidate env ∧
          env.writeTestOk (default_candidate env) = true
        ∨ (get_default_download_dir env).1 = env.cwd ∧
          env.writeTestOk (default_candidate env) = false))
  ∧ ((env.system = "Linux" ∧ env.hasAndroidRoot = true) →
      (get_default_download_dir env).2 = 0 ∧
      (get_default_download_dir env).1 =
        ((android_possible_dirs env).find? env.pathExists).getD env.cwd) := by
  constructor
  · intro h
    rw [get_default_eq_verify env h]
    unfold verify_and_fallback
    by_cases hv : env.writeTestOk (default_candidate env) = true
    · simp [hv]
    · simp [hv, Bool.eq_false_iff.mpr hv]
  · intro h
    unfold get_default_download_dir
    have hns : ¬ env.system = "Windows" := by
      rw [h.1]; intro hc; exact absurd hc (by decide)
    simp only [hns, if_false, h, and_self, if_true]
    cases hfind : (android_possible_dirs env).find? env.pathExists <;> simp [hfind]

/-- Witness for C2: on a concrete non-Android host with an unwritable
candidate, the verification runs once and the cwd fallback is returned. -/
theorem C2_witness :
    (get_default_download_dir envDesktopRO).2 = 1 ∧
    ((get_default_download_dir envDesktopRO).1 = default_candidate envDesktopRO ∧
        envDesktopRO.writeTestOk (default_candidate envDesktopRO) = true
      ∨ (get_default_download_dir envDesktopRO).1 = envDesktopRO.cwd ∧
        envDesktopRO.writeTestOk (default_candidate envDesktopRO) = false) :=
  (C2_default_dir envDesktopRO).1 (by decide)

/-- Counterexample to C3: a non-existent user-supplied path is accepted, and
the function creates the directory on the caller's behalf. -/
theorem C3_counterexample :
    fsFresh.pathExists "/new" = false ∧
    (set_download_directory fsFresh "/old" "/new").accepted = true ∧
    (set_download_directory fsFresh "/old" "/new").download_dir = "/new" ∧
    (set_download_directory fsFresh "/old" "/new").createdDir = true := by
  refine ⟨by decide, by decide, by decide, by decide⟩

/-- C3 (amended).  `set_download_directory` does not validate prior
existence: a missing directory is created via `os.makedirs`.  A path is
accepted iff the marker-file write test succeeds on it (after creation when
needed); on rejection the previous directory is kept. -/
theorem C3_set_dir (fs : DirFs) (cur new : String) :
    ((set_download_directory fs cur new).accepted = true ↔
      fs.writeTestOk new = true ∧
        (fs.pathExists new = true ∨ fs.mkdirOk new = true))
  ∧ ((set_download_directory fs cur new).accepted = true →
      (set_download_directory fs cur new).download_dir = new)
  ∧ ((set_download_directory fs cur new).accepted = false →
      (set_download_directory fs cur new).download_dir = cur)
  ∧ ((set_download_directory fs cur new).createdDir = true ↔
      fs.pathExists new = false ∧ fs.mkdirOk new = true) := by
  unfold set_download_directory
  refine ⟨?_, ?_, ?_, ?_⟩ <;> split_ifs <;> simp_all

/-- Witness for C3: on a concrete existing writable path, the amended
acceptance condition holds. -/
theorem C3_witness :
    (set_download_directory fsExisting "/old" "/new").accepted = true :=
  (C3_set_dir fsExisting "/old" "/new").1.mpr ⟨by decide, Or.inl (by decide)⟩

/-- The loop aggregate: attempted URLs are exactly the stripped non-blank
entries, and the success count is bounded by their number. -/
theorem batch_go_spec (engine : Engine) (dir : String) (rands : Nat → Nat)
    (dt : DownloadType) (quality : String) (urls : List String) : ∀ i : Nat,
    (batch_go engine dir rands dt quality i urls).2 =
      (urls.map pyStrip).filter (fun u => u ≠ "") ∧
    (batch_go engine dir rands dt quality i urls).1 ≤
      ((urls.map pyStrip).filter (fun u => u ≠ "")).length := by
  induction urls with
  | nil => intro i; simp [batch_go]
  | cons url rest ih =>
    intro i
    obtain ⟨h2, h1⟩ := ih (i + 1)
    by_cases hu : pyStrip url = ""
    · have hgo : batch_go engine dir rands dt quality i (url :: rest) =
          batch_go engine dir rands dt quality (i + 1) rest := by
        simp [batch_go, hu]
      rw [hgo, List.map_cons, List.filter_cons_of_neg (by simp [hu])]
      exact ⟨h2, h1⟩
    · have hgo : batch_go engine dir rands dt quality i (url :: rest) =
          ((if (download_media engine dir (rands i) (pyStrip url) dt quality).1.ok
              then 1 else 0) +
            (batch_go engine dir rands dt quality (i + 1) rest).1,
           pyStrip url :: (batch_go engine dir rands dt quality (i + 1) rest).2) := by
        simp [batch_go, hu]
      rw [hgo, List.map_cons, List.filter_cons_of_pos (by simp [hu])]
      constructor
      · simpa using h2
      · have hone : (if (download_media engine dir (rands i) (pyStrip url) dt quality).1.ok
            then 1 else 0) ≤ 1 := by split <;> simp
        simp only [List.length_cons]
        omega

/-- C1 (amended).  `BatchTally.total` equals the full length of the input
sequence, blank entries included; blank/whitespace-only entries are skipped
(never handed to `download_media`) but still count toward `total`;
`succeeded` is at most the number of non-blank entries, hence at most
`total`.  For the spec scenario `["", url1, "   ", url2]` with `url1`
succeeding and `url2` failing, `total = 4` and `succeeded = 1`
(see the counterexample theorem). -/
theorem C1_batch (engine : Engine) (dir : String) (rands : Nat → Nat)
    (urls : List String) (dt : DownloadType) (quality : String) :
    (batch_download engine dir rands urls dt quality).total = urls.length
  ∧ (batch_download engine dir rands urls dt quality).attempted =
      (urls.map pyStrip).filter (fun u => u ≠ "")
  ∧ (batch_download engine dir rands urls dt quality).succeeded ≤
      ((urls.map pyStrip).filter (fun u => u ≠ "")).length
  ∧ (batch_download engine dir rands urls dt quality).succeeded ≤
      (batch_download engine dir rands urls dt quality).total := by
  obtain ⟨h2, h1⟩ := batch_go_spec engine dir rands dt quality urls 1
  refine ⟨rfl, h2, h1, ?_⟩
  have hlen : ((urls.map pyStrip).filter (fun u => u ≠ "")).length ≤ urls.length := by
    calc ((urls.map pyStrip).filter (fun u => u ≠ "")).length
        ≤ (urls.map pyStrip).length := List.length_filter_le _ _
      _ = urls.length := List.length_map _ _
  have : (batch_download engine dir rands urls dt quality).succeeded ≤
      ((urls.map pyStrip).filter (fun u => u ≠ "")).length := h1
  simp only [batch_download]
  omega

/-- Counterexample to C1: for the batch `["", url1, "   ", url2]` where
`url1` succeeds and `url2` fails, the code reports `total = 4` — the blank
and whitespace-only entries are counted by `total = len(urls)` — not the 2
the claim demands, while `succeeded = 1`. -/
theorem C1_counterexample :
    (batch_download engineC1 "/d" (fun _ => 11111)
        ["", "https://youtu.be/ok", "   ", "https://vimeo.com/x"]
        DownloadType.video "best").total = 4 ∧
    (batch_download engineC1 "/d" (fun _ => 11111)
        ["", "https://youtu.be/ok", "   ", "https://vimeo.com/x"]
        DownloadType.video "best").succeeded = 1 ∧
    ((["", "https://youtu.be/ok", "   ", "https://vimeo.com/x"].map pyStrip).filter
        (fun u => u ≠ "")).length = 2 := by
  refine ⟨by decide, by decide, by decide⟩

/-- C4 (the code at the failing input).  For a URL matching no registered
platform, `download_subtitles` evaluates `'youtube' not in None` and raises
an uncaught `TypeError` to its caller — for every engine, i.e. without the
engine ever being consulted. -/
theorem C4_subtitles_uncaught (subEngine : String → Except String Unit) :
    download_subtitles subEngine "https://example-unknown.test/x" =
      PyResult.exn "TypeError: argument of type NoneType is not iterable" := by
  have h : detect_platform "https://example-unknown.test/x" = none := by decide
  unfold download_subtitles
  rw [h]

/-- C6.  When platform detection fails, `download_media` returns the failed
outcome with the unsupported-platform message and never contacts the
extraction engine. -/
theorem C6_unsupported (engine : Engine) (dir : String) (randNum : Nat)
    (url : String) (dt : DownloadType) (quality : String)
    (h : detect_platform url = none) :
    download_media engine dir randNum url dt quality =
      (⟨false, none, some ("Unsupported URL or platform: " ++ url)⟩, none) := by
  unfold download_media
  rw [h]

/-- Witness for C6 at the spec's concrete unknown URL. -/
theorem C6_witness :
    download_media engineNever "/d" 7 "https://example-unknown.test/x"
        DownloadType.video "best" =
      (⟨false, none,
        some ("Unsupported URL or platform: " ++ "https://example-unknown.test/x")⟩,
       none) :=
  C6_unsupported engineNever "/d" 7 "https://example-unknown.test/x"
    DownloadType.video "best" (by decide)

/-- On a detected platform the engine is invoked exactly once, with the
options assembled by `build_opts`. -/
theorem download_media_trace (engine : Engine) (dir : String) (randNum : Nat)
    (url : String) (dt : DownloadType) (quality : String) (p : String)
    (h : detect_platform url = some p) :
    (download_media engine dir randNum url dt quality).2 =
      some (url, build_opts dir p randNum dt quality) := by
  cases hengine : engine url (build_opts dir p randNum dt quality) <;>
    simp [download_media, h, hengine]

/-- C7.  For an Audio request, the options handed to the engine always carry
the format expression `bestaudio/best` — the quality hint is ignored, so the
whole outcome is independent of it — and on success the reported final path
is the engine's filename with its extension replaced by `.mp3`. -/
theorem C7_audio (engine : Engine) (dir : String) (randNum : Nat)
    (url : String) (q1 q2 : String) (p : String)
    (h : detect_platform url = some p) :
    (∀ u o, (download_media engine dir randNum url DownloadType.audio q1).2 = some (u, o) →
      o.format = some "bestaudio/best")
  ∧ download_media engine dir randNum url DownloadType.audio q1 =
      download_media engine dir randNum url DownloadType.audio q2
  ∧ (∀ f, engine url (build_opts dir p randNum DownloadType.audio q1) = Except.ok f →
      (download_media engine dir randNum url DownloadType.audio q1).1.finalPath =
        some ((splitext f).1 ++ ".mp3")) := by
  refine ⟨?_, ?_, ?_⟩
  · intro u o ho
    rw [download_media_trace engine dir randNum url DownloadType.audio q1 p h] at ho
    injection ho with hpair
    injection hpair with hu2 ho2
    rw [← ho2]
    rfl
  · unfold download_media
    rw [h]
    rfl
  · intro f hf
    simp [download_media, h, hf]

/-- Witness for C7: concrete audio request on `https://youtu.be/abc` with a
`.webm` intermediate filename; the reported path ends in `.mp3`. -/
theorem C7_witness :
    (download_media engineAudio "/d" 5 "https://youtu.be/abc"
        DownloadType.audio "720").1.finalPath = some "/d/Some Title.mp3" := by
  have h := (C7_audio engineAudio "/d" 5 "https://youtu.be/abc" "720" "720"
    "youtube" (by decide)).2.2 "/d/Some Title.webm" (by rfl)
  rw [h]
  decide

/-- Heights emitted by the dedup loop never lie in the `seen` set. -/
theorem dedup_not_seen (l : List RawFormat) : ∀ (seen : List Int)
    (q : QualityOption), q ∈ dedupByHeight l seen → q.height ∉ seen := by
  induction l with
  | nil => intro seen q hq; simp [dedupByHeight] at hq
  | cons f rest ih =>
    intro seen q hq
    by_cases hf : heightKey f ∈ seen
    · rw [dedupByHeight, if_pos hf] at hq
      exact ih seen q hq
    · rw [dedupByHeight, if_neg hf] at hq
      rcases List.mem_cons.mp hq with h | h
      · rw [h]; exact hf
      · exact fun hmem => ih _ q h (List.mem_cons_of_mem _ hmem)

/-- Heights emitted by the dedup loop are pairwise distinct. -/
theorem dedup_nodup (l : List RawFormat) : ∀ seen : List Int,
    ((dedupByHeight l seen).map QualityOption.height).Nodup := by
  induction l with
  | nil => intro seen; simp [dedupByHeight]
  | cons f rest ih =>
    intro seen
    by_cases hf : heightKey f ∈ seen
    · rw [dedupByHeight, if_pos hf]; exact ih seen
    · rw [dedupByHeight, if_neg hf]
      rw [List.map_cons, List.nodup_cons]
      refine ⟨?_, ih _⟩
      intro hmem
      obtain ⟨q, hq, hqh⟩ := List.mem_map.mp hmem
      have := dedup_not_seen rest (heightKey f :: seen) q hq
      exact this (hqh ▸ List.mem_cons_self _ _)

/-- The emitted heights form a sublist of the input keys, in order. -/
theorem dedup_sublist (l : List RawFormat) : ∀ seen : List Int,
    ((dedupByHeight l seen).map QualityOption.height).Sublist (l.map heightKey) := by
  induction l with
  | nil => intro seen; simp [dedupByHeight]
  | cons f rest ih =>
    intro seen
    by_cases hf : heightKey f ∈ seen
    · rw [dedupByHeight, if_pos hf, List.map_cons]
      exact (ih seen).cons _
    · rw [dedupByHeight, if_neg hf, List.map_cons, List.map_cons]
      exact (ih _).cons₂ _

/-- Every emitted entry is built from some input format. -/
theorem dedup_mem (l : List RawFormat) : ∀ (seen : List Int) (q : QualityOption),
    q ∈ dedupByHeight l seen → ∃ f ∈ l, q = mkQuality f := by
  induction l with
  | nil => intro seen q hq; simp [dedupByHeight] at hq
  | cons f rest ih =>
    intro seen q hq
    by_cases hf : heightKey f ∈ seen
    · rw [dedupByHeight, if_pos hf] at hq
      obtain ⟨g, hg, hgq⟩ := ih seen q hq
      exact ⟨g, List.mem_cons_of_mem _ hg, hgq⟩
    · rw [dedupByHeight, if_neg hf] at hq
      rcases List.mem_cons.mp hq with h | h
      · exact ⟨f, List.mem_cons_self _ _, h⟩
      · obtain ⟨g, hg, hgq⟩ := ih _ q h
        exact ⟨g, List.mem_cons_of_mem _ hg, hgq⟩

/-- Every emitted entry is built from the first input element at its
height. -/
theorem dedup_first (l : List RawFormat) : ∀ (seen : List Int) (q : QualityOption),
    q ∈ dedupByHeight l seen →
    ∃ l1 f l2, l = l1 ++ f :: l2 ∧ q = mkQuality f ∧
      ∀ g ∈ l1, heightKey g ≠ q.height := by
  induction l with
  | nil => intro seen q hq; simp [dedupByHeight] at hq
  | cons f rest ih =>
    intro seen q hq
    by_cases hf : heightKey f ∈ seen
    · rw [dedupByHeight, if_pos hf] at hq
      obtain ⟨l1, g, l2, hsplit, hqg, havoid⟩ := ih seen q hq
      have hqs : q.height ∉ seen := dedup_not_seen rest seen q hq
      refine ⟨f :: l1, g, l2, by rw [hsplit]; rfl, hqg, ?_⟩
      intro x hx
      rcases List.mem_cons.mp hx with h | h
      · rw [h]; exact fun hc => hqs (hc ▸ hf)
      · exact havoid x h
    · rw [dedupByHeight, if_neg hf] at hq
      rcases List.mem_cons.mp hq with h | h
      · exact ⟨[], f, rest, rfl, h, by simp⟩
      · obtain ⟨l1, g, l2, hsplit, hqg, havoid⟩ := ih _ q h
        have hqs : q.height ∉ heightKey f :: seen :=
          dedup_not_seen rest (heightKey f :: seen) q h
        refine ⟨f :: l1, g, l2, by rw [hsplit]; rfl, hqg, ?_⟩
        intro x hx
        rcases List.mem_cons.mp hx with h2 | h2
        · rw [h2]
          exact fun hc => hqs (hc ▸ List.mem_cons_self _ _)
        · exact havoid x h2

/-- The sorted format list has weakly descending height keys. -/
theorem sortFormats_sorted (l : List RawFormat) :
    ((sortFormats l).map heightKey).Pairwise (fun a b => b ≤ a) := by
  have htrans : ∀ a b c : RawFormat,
      (fun a b => decide (heightKey b ≤ heightKey a)) a b = true →
      (fun a b => decide (heightKey b ≤ heightKey a)) b c = true →
      (fun a b => decide (heightKey b ≤ heightKey a)) a c = true := by
    intro a b c h1 h2
    simp only [decide_eq_true_eq] at h1 h2 ⊢
    exact le_trans h2 h1
  have htotal : ∀ a b : RawFormat,
      ((fun a b => decide (heightKey b ≤ heightKey a)) a b ||
       (fun a b => decide (heightKey b ≤ heightKey a)) b a) = true := by
    intro a b
    rcases le_total (heightKey b) (heightKey a) with h | h <;> simp [h]
  have := List.sorted_mergeSort htrans htotal l
  rw [List.pairwise_map]
  exact this.imp (fun h => by simpa using h)

/-- C8.  `get_available_qualities` returns `[]` on probe failure; its output
heights are pairwise distinct and strictly descending; every entry stems
from a probed format that passed the video filter (so has a determinable
height); each entry is built from the first element at its height in the
stably sorted format list; and an empty quality list makes the menu degrade
to the sentinel `best`. -/
theorem C8_probe (probeRes : Option (List RawFormat)) :
    (probeRes = none → get_available_qualities probeRes = [])
  ∧ ((get_available_qualities probeRes).map QualityOption.height).Nodup
  ∧ ((get_available_qualities probeRes).map QualityOption.height).Pairwise
      (fun a b => a > b)
  ∧ (∀ q ∈ get_available_qualities probeRes, ∃ f ∈ probeRes.getD [],
      isVideoFormat f = true ∧ f.height = some q.height ∧ q = mkQuality f)
  ∧ (∀ q ∈ get_available_qualities probeRes,
      ∃ l1 f l2, sortFormats ((probeRes.getD []).filter isVideoFormat) =
        l1 ++ f :: l2 ∧ q = mkQuality f ∧ ∀ g ∈ l1, heightKey g ≠ q.height)
  ∧ (∀ choice manualId, get_available_qualities probeRes = [] →
      show_quality_menu probeRes choice manualId = "best") := by
  refine ⟨?_, ?_, ?_, ?_, ?_, ?_⟩
  · intro h; rw [h]; rfl
  · cases probeRes with
    | none => simp [get_available_qualities]
    | some formats => exact dedup_nodup _ []
  · cases probeRes with
    | none => simp [get_available_qualities]
    | some formats =>
      have hge : ((get_available_qualities (some formats)).map
          QualityOption.height).Pairwise (fun a b => b ≤ a) :=
        List.Pairwise.sublist
          (dedup_sublist (sortFormats (formats.filter isVideoFormat)) [])
          (sortFormats_sorted (formats.filter isVideoFormat))
      have hnd : ((get_available_qualities (some formats)).map
          QualityOption.height).Pairwise (fun a b => a ≠ b) := dedup_nodup _ []
      exact (hge.and hnd).imp (fun h => lt_of_le_of_ne h.1 (Ne.symm h.2))
  · intro q hq
    cases probeRes with
    | none => simp [get_available_qualities] at hq
    | some formats =>
      obtain ⟨f, hf, hqf⟩ :=
        dedup_mem (sortFormats (formats.filter isVideoFormat)) [] q hq
      have hperm := List.mergeSort_perm (formats.filter isVideoFormat)
        (fun a b => decide (heightKey b ≤ heightKey a))
      have hfmem : f ∈ formats.filter isVideoFormat := hperm.mem_iff.mp hf
      have hvf : isVideoFormat f = true := List.of_mem_filter hfmem
      have hfin : f ∈ formats := List.mem_of_mem_filter hfmem
      have hsome : f.height.isSome = true := by
        have := hvf
        simp only [isVideoFormat, Bool.and_eq_true] at this
        exact this.2
      obtain ⟨h, hh⟩ := Option.isSome_iff_exists.mp hsome
      refine ⟨f, by simpa using hfin, hvf, ?_, hqf⟩
      rw [hqf]
      show f.height = some (heightKey f)
      rw [heightKey, hh]
      rfl
  · intro q hq
    cases probeRes with
    | none => simp [get_available_qualities] at hq
    | some formats =>
      simpa using dedup_first (sortFormats (formats.filter isVideoFormat)) [] q hq
  · intro choice manualId h
    simp [show_quality_menu, h]

/-- Witness for C8: a failed probe yields the empty list, and the menu then
returns the sentinel `best`. -/
theorem C8_witness : show_quality_menu none 1 "fmt137" = "best" :=
  (C8_probe none).2.2.2.2.2 1 "fmt137" rfl

/-- C9.  When the total byte count (with its estimated fallback) is unknown
or zero, no percentage is emitted; whenever a percentage is emitted, both
byte counts were known and the value lies in `[0, 100]` — the `min` clamps
an overshooting `downloaded / total` ratio. -/
theorem C9_progress (active : Bool) (d : ProgressDict) :
    (pyTruthy (pyOrNat d.total_bytes d.total_bytes_estimate) = false →
      ytdl_progress_hook active d = PyResult.ok none)
  ∧ (∀ p : ℚ, ytdl_progress_hook active d = PyResult.ok (some p) →
      pyTruthy (pyOrNat d.total_bytes d.total_bytes_estimate) = true ∧
      d.downloaded_bytes.isSome = true ∧ 0 ≤ p ∧ p ≤ 100) := by
  constructor
  · intro h
    cases active with
    | false => rfl
    | true =>
      by_cases hs : d.status = "downloading"
      · simp [ytdl_progress_hook, hs, h]
      · simp [ytdl_progress_hook, hs]
  · intro p hp
    cases active with
    | false => simp [ytdl_progress_hook] at hp
    | true =>
      by_cases hs : d.status = "downloading"
      · by_cases ht : pyTruthy (pyOrNat d.total_bytes d.total_bytes_estimate) = true
        · cases hd : d.downloaded_bytes with
          | none => simp [ytdl_progress_hook, hs, ht, hd] at hp
          | some dn =>
            simp only [ytdl_progress_hook, hs, ht, hd, if_pos, if_true] at hp
            have hp2 : min 100 ((dn : ℚ) /
                (((pyOrNat d.total_bytes d.total_bytes_estimate).getD 0 : Nat) : ℚ) * 100) =
                p := by simpa using hp
            refine ⟨ht, by simp [hd], ?_, ?_⟩
            · rw [← hp2]
              have h0 : (0 : ℚ) ≤ (dn : ℚ) /
                  (((pyOrNat d.total_bytes d.total_bytes_estimate).getD 0 : Nat) : ℚ) * 100 := by
                positivity
              exact le_min (by norm_num) h0
            · rw [← hp2]
              exact min_le_left _ _
        · simp [ytdl_progress_hook, hs, ht] at hp
      · simp [ytdl_progress_hook, hs] at hp

/-- Witness for C9: on the overshooting sample the hook emits exactly 100,
and the theorem's bounds apply to it. -/
theorem C9_witness :
    pyTruthy (pyOrNat sampleOvershoot.total_bytes sampleOvershoot.total_bytes_estimate)
        = true ∧
    sampleOvershoot.downloaded_bytes.isSome = true ∧
    (0 : ℚ) ≤ 100 ∧ (100 : ℚ) ≤ 100 :=
  (C9_progress true sampleOvershoot).2 100 (by
    unfold ytdl_progress_hook sampleOvershoot
    norm_num [pyOrNat, pyTruthy])

/-- Counterexample to C10: the vector `["prog", "-v", "-a"]` contains `-a`,
yet the version branch runs first — the about text is never shown. -/
theorem C10_counterexample :
    handle_cli_args ["prog", "-v", "-a"] = (CliAction.printVersion, 0) ∧
    (CliAction.printVersion, 0) ≠ ((CliAction.showAbout, 0) : CliAction × Nat) := by
  refine ⟨by decide, by decide⟩

/-- C10 (amended).  Any argument vector containing `-a` but no version flag
shows the about text and exits 0; any vector containing `-a` never reaches a
download at all (so `-d <url> -a` cannot download audio); the audio download
path is reachable only through `--audio`. -/
theorem C10_cli (argv : List String) :
    ("-a" ∈ argv → "--version" ∉ argv → "-v" ∉ argv →
      handle_cli_args argv = (CliAction.showAbout, 0))
  ∧ ("-a" ∈ argv → ∀ url dt quality c,
      handle_cli_args argv ≠ (CliAction.download url dt quality, c))
  ∧ (∀ url quality c,
      handle_cli_args argv = (CliAction.download url DownloadType.audio quality, c) →
      "--audio" ∈ argv) := by
  refine ⟨?_, ?_, ?_⟩
  · intro ha hv1 hv2
    have h1 : ¬ ("--version" ∈ argv ∨ "-v" ∈ argv) := by tauto
    have h2 : "--about" ∈ argv ∨ "-a" ∈ argv := Or.inr ha
    simp [handle_cli_args, h1, h2]
  · intro ha url dt quality c
    unfold handle_cli_args
    by_cases h1 : "--version" ∈ argv ∨ "-v" ∈ argv
    · simp [h1]
    · simp [h1, Or.inr ha]
  · intro url quality c h
    unfold handle_cli_args at h
    by_cases h1 : "--version" ∈ argv ∨ "-v" ∈ argv
    · simp [h1] at h
    · by_cases h2 : "--about" ∈ argv ∨ "-a" ∈ argv
      · simp [h1, h2] at h
      · by_cases h3 : 3 ≤ argv.length ∧
            argv.getD 1 "" ∈ (["-d", "--download"] : List String)
        · by_cases hf : "-a" ∈ argv ∨ "--audio" ∈ argv
          · rcases hf with hfa | hfo
            · exact absurd (Or.inr hfa) h2
            · exact hfo
          · have h3b : argv[1]?.getD "" = "-d" ∨ argv[1]?.getD "" = "--download" := by
              have hm := h3.2
              simpa using hm
            simp [h1, h2, h3.1, h3b, hf] at h
        · have h3n : ¬ (3 ≤ argv.length ∧
              (argv[1]?.getD "" = "-d" ∨ argv[1]?.getD "" = "--download")) := by
            intro hc
            exact h3 ⟨hc.1, by simpa using hc.2⟩
          simp [h1, h2, h3n] at h

/-- Witness for C10 on the concrete vector `["prog", "-a"]`. -/
theorem C10_witness :
    handle_cli_args ["prog", "-a"] = (CliAction.showAbout, 0) :=
  (C10_cli ["prog", "-a"]).1 (by decide) (by decide) (by decide)

end SMG
